import Mathlib

/-!
Verification of `runner/call_template_data.go`: the per-call template data
and dynamic-content generation engine of a gRPC load-testing tool.

Modelling conventions (shallow embedding):
* Go `int` / `int64` values are modelled as `Int`; Go's `%` on integers is
  truncated remainder, i.e. `Int.tmod`; Go's `/` on integers is truncated
  division, i.e. `Int.tdiv`.  Where a modelled computation can leave the
  `int64` range — the `Range` capacity expression and loop — the
  two's-complement wrap-around of Go `int` arithmetic is applied
  explicitly via `wrap64`; on every other modelled path the source's
  arithmetic provably stays inside `int64` bounds.
* Go byte slices produced from strings are modelled as `String` (the byte
  content), and `map[string]string` as an association list.
* A Go call can end in three ways: return a value with a nil error, return
  a non-nil error, or panic (runtime out-of-range, or an explicit
  `template.Must` panic).  `GoResult` captures the three outcomes.
* Randomness (`rand.Intn`) is modelled by passing the drawn value as an
  explicit parameter; theorems quantify over every value the generator can
  return (`rand.Intn n` yields an integer in `[0, n)` and panics if
  `n <= 0`, which never happens on the paths modelled here).
* The `text/template` machinery is external to the repository.  Its
  outcome on a given template string and call context is abstracted as an
  `EngineOutcome`: a parse failure, an execution failure, or rendered
  output.  `json.Unmarshal` into `map[string]string` is likewise external
  and abstracted as a `String → Except String Metadata` parameter.
-/

namespace Runner

/-- Outcome of a Go function call: value with nil error, non-nil error, or
a runtime panic. -/
inductive GoResult (α : Type) where
  | ok : α → GoResult α
  | err : String → GoResult α
  | panicked : GoResult α
deriving DecidableEq, Repr

/-- Go slice indexing `values[i]` with an `int`-typed index: panics unless
`0 ≤ i < len(values)`. -/
def goIndex (values : List String) (i : Int) : GoResult String :=
  if h : 0 ≤ i ∧ i < (values.length : Int) then
    .ok (values.get ⟨i.toNat, by omega⟩)
  else
    .panicked

/-- Go slice expression `values[lo:hi]` with `int`-typed bounds: panics
unless `0 ≤ lo ≤ hi ≤ len(values)`; otherwise yields the half-open
window `[lo, hi)`. -/
def goSlice (values : List String) (lo hi : Int) : GoResult (List String) :=
  if 0 ≤ lo ∧ lo ≤ hi ∧ hi ≤ (values.length : Int) then
    .ok ((values.drop lo.toNat).take (hi - lo).toNat)
  else
    .panicked

/-- Abstract outcome of the external `text/template` engine on one
template string bound to one call context and the function library:
`Parse` fails, `Execute` fails, or execution renders output bytes. -/
inductive EngineOutcome where
  | parseError (msg : String)
  | execError (msg : String)
  | rendered (output : String)
deriving DecidableEq, Repr

/-- Model of `(td *callTemplateData) execute(data string)`.
The source builds the template with
`template.Must(template.New("call_template_data").Funcs(...).Parse(data))`:
`template.Must` panics when `Parse` returns a non-nil error, so a parse
failure is a panic, not a returned error.  An `Execute` failure is
returned as the error; otherwise the rendered buffer is returned. -/
def execute (o : EngineOutcome) : GoResult String :=
  match o with
  | .parseError _ => .panicked
  | .execError msg => .err msg
  | .rendered s => .ok s

/-- Model of `executeData`: for non-empty input, `input` starts as the
literal template bytes; only when `execute` returns a nil error is it
replaced by the rendered bytes; `(input, nil)` is returned either way.
A panic inside `execute` propagates.  Empty input returns empty bytes. -/
def executeData (data : String) (o : EngineOutcome) : GoResult String :=
  if data.length > 0 then
    match execute o with
    | .panicked => .panicked
    | .err _ => .ok data
    | .ok rendered => .ok rendered
  else
    .ok ("")

/-- Rendered call metadata: Go `map[string]string`, modelled as an
association list of key/value pairs. -/
abbrev Metadata := List (String × String)

/-- Model of `executeMetadata`: for non-empty input, `input` starts as the
literal template bytes and is replaced by the rendered bytes only when
`execute` returns a nil error (a panic propagates); then
`json.Unmarshal(input, &mdMap)` runs on whichever bytes `input` holds, and
its error, if any, is returned.  Empty input returns the empty mapping. -/
def executeMetadata (metadata : String) (o : EngineOutcome)
    (jsonUnmarshal : String → Except String Metadata) : GoResult Metadata :=
  if metadata.length > 0 then
    match execute o with
    | .panicked => .panicked
    | .err _ =>
      match jsonUnmarshal metadata with
      | .error e => .err e
      | .ok m => .ok m
    | .ok rendered =>
      match jsonUnmarshal rendered with
      | .error e => .err e
      | .ok m => .ok m
  else
    .ok []

/-- The externally supplied, read-only method descriptor: the fields
`newCallTemplateData` copies out of `*desc.MethodDescriptor`. -/
structure MethodDescriptor where
  fullyQualifiedName : String
  methodName : String
  serviceName : String
  inputName : String
  outputName : String
  isClientStreaming : Bool
  isServerStreaming : Bool
deriving DecidableEq, Repr

/-- The single wall-clock reading taken at context construction:
its RFC3339 rendering, seconds since epoch, and nanoseconds since epoch. -/
structure TimeNow where
  rfc3339 : String
  unixSec : Int
  unixNano : Int
deriving DecidableEq, Repr

/-- The call template data record (one per call, immutable once built). -/
structure callTemplateData where
  WorkerID : String
  RequestNumber : Int
  FullyQualifiedName : String
  MethodName : String
  ServiceName : String
  InputName : String
  OutputName : String
  IsClientStreaming : Bool
  IsServerStreaming : Bool
  Timestamp : String
  TimestampUnix : Int
  TimestampUnixMilli : Int
  TimestampUnixNano : Int
  UUID : String
deriving DecidableEq, Repr

/-- String rendering of `uuid.Nil`, the empty (all-zeros) UUID.
`github.com/google/uuid` documents `Nil` as the empty UUID, and
`uuid.NewRandom` returns `(Nil, err)` when randomness is unavailable. -/
def nilUUIDString : String := "00000000-0000-0000-0000-000000000000"

/-- Model of `newCallTemplateData`: total construction.  The source runs
`newUUID, _ := uuid.NewRandom()`, discarding the error; per the
`google/uuid` contract the value component is `uuid.Nil` (the empty UUID)
exactly when the error is non-nil, so a generation failure leaves the
`UUID` field holding the empty UUID string.  The generator outcome is the
explicit parameter `uuidNewRandom` (`.ok s` = generated string `s`,
`.error e` = failure, value component `uuid.Nil`). -/
def newCallTemplateData (mtd : MethodDescriptor) (workerID : String) (reqNum : Int)
    (now : TimeNow) (uuidNewRandom : Except String String) : callTemplateData :=
  let newUUID :=
    match uuidNewRandom with
    | .ok s => s
    | .error _ => nilUUIDString
  { WorkerID := workerID
    RequestNumber := reqNum
    FullyQualifiedName := mtd.fullyQualifiedName
    MethodName := mtd.methodName
    ServiceName := mtd.serviceName
    InputName := mtd.inputName
    OutputName := mtd.outputName
    IsClientStreaming := mtd.isClientStreaming
    IsServerStreaming := mtd.isServerStreaming
    Timestamp := now.rfc3339
    TimestampUnix := now.unixSec
    TimestampUnixMilli := Int.tdiv now.unixNano 1000000
    TimestampUnixNano := now.unixNano
    UUID := newUUID }

/-- Smallest `int64` value, `-(2^63)`. -/
def int64Min : Int := -9223372036854775808

/-- Two's-complement wrap of an exact integer into the `int64` range
`[-(2^63), 2^63)`: the result is congruent to the input modulo `2^64`.
This is the value a Go `int` (64-bit) addition or subtraction produces
when the exact result leaves the range.  The numerals are `2^63` and
`2^64`. -/
def wrap64 (x : Int) : Int :=
  (x + 9223372036854775808) % 18446744073709551616 - 9223372036854775808

/-- The body of the `Range` loop,
`for start < end { append Itoa(start); start += step }`, with
`start += step` wrapping in `int64` arithmetic.  Under wrap-around the
loop need not terminate (e.g. `start = 0`, `end = 2^63 - 1`,
`step = 2^62` cycles through four values all below `end` forever), so
the model is fuel-indexed: `none` means the loop has not finished within
`fuel` iterations; a terminating run returns `some` of its output for
every sufficiently large fuel. -/
def rangeLoop : Nat → Int → Int → Int → Option (List String)
  | 0, _, _, _ => none
  | fuel + 1, start, stop, step =>
    if start < stop then
      match rangeLoop fuel (wrap64 (start + step)) stop step with
      | some rest => some (toString start :: rest)
      | none => none
    else
      some []

/-- The capacity expression `(end-start)/step + 1` of the source's
`make([]string, 0, (end-start)/step+1)`, evaluated in Go `int`
arithmetic: the subtraction wraps in `int64`, `/` is Go's truncated
division, and the final `+ 1` can itself wrap.  It is only evaluated
after the guard, so `step ≥ 1` there. -/
def rangeCap (start stop step : Int) : Int :=
  wrap64 (Int.tdiv (wrap64 (stop - start)) step + 1)

/-- Model of the `Range` template function: empty on
`step <= 0 || start >= step` (the second guard compares `start` with
`step`, exactly as the source does); otherwise the source allocates
`make([]string, 0, (end-start)/step+1)`, which panics at runtime when
that capacity is negative (allocation-size limits on huge non-negative
capacities are not modelled), and then runs the loop.  The outer
`Option` is the fuel index inherited from `rangeLoop`: `none` means the
loop has not finished within `fuel` iterations. -/
def Range (fuel : Nat) (start stop step : Int) : Option (GoResult (List String)) :=
  if step ≤ 0 ∨ start ≥ step then
    some (.ok [])
  else if rangeCap start stop step < 0 then
    some .panicked
  else
    (rangeLoop fuel start stop step).map GoResult.ok

/-- Specification-side comparison list, following the spec's words: the
decimal string renderings of the arithmetic progression
`start, start + step, …` of all values strictly below `stop`, in exact
(unbounded) integer arithmetic.  The `0 < step` conjunct only justifies
termination. -/
def progressionBelow (start stop step : Int) : List String :=
  if _h : 0 < step ∧ start < stop then
    toString start :: progressionBelow (start + step) stop step
  else
    []
termination_by (stop - start).toNat
decreasing_by
  simp_wf
  omega

/-- Model of the `RoundRobin` template function: error on an empty
sequence, otherwise the Go index expression
`values[td.RequestNumber % int64(len(values))]`, where `%` is Go's
truncated remainder (`Int.tmod`). -/
def RoundRobin (reqNum : Int) (values : List String) : GoResult String :=
  if values.length < 1 then
    .err ("values is empty")
  else
    goIndex values (Int.tmod reqNum (values.length : Int))

/-- Model of the `RandomSlice` template function.  `a` and `b` stand for
the two `rand.Intn(len(values))` draws (`start` and `end` in the source);
the branch structure mirrors the source's swap / equal-index adjustment,
followed by the slice expression `values[start:end]`. -/
def RandomSlice (values : List String) (a b : Int) : GoResult (List String) :=
  if values.length < 1 then
    .err ("values is empty")
  else if a > b then
    goSlice values b a
  else if a = b then
    (if a = 0 then goSlice values a (b + 1) else goSlice values (a - 1) b)
  else
    goSlice values a b

/-- Model of the `RandomSliceK` template function.  `start` stands for the
`rand.Intn(len(values) - k)` draw (on the path where it is reached,
`len(values) > k`, so `rand.Intn`'s argument is positive and it does not
panic); the result is the slice expression `values[start:start+k]`. -/
def RandomSliceK (values : List String) (k : Int) (start : Int) : GoResult (List String) :=
  if (values.length : Int) < k then
    .err ("values must be longer than k")
  else if (values.length : Int) = k then
    .ok values
  else
    goSlice values start (start + k)

/-- Concrete metadata template whose literal text is a valid JSON
string-to-string object but whose execution fails: `.Nope` is not a field
of `callTemplateData`, so `Execute` returns an error, while the raw text
`{"k":"{{.Nope}}"}` JSON-decodes to the mapping `k ↦ {{.Nope}}`. -/
def nopeTemplate : String := "\x7b\"k\":\"\x7b\x7b.Nope\x7d\x7d\"\x7d"

/-- Behaviour of `encoding/json`'s `Unmarshal` into `map[string]string`
on the one input the counterexample feeds it: the literal text of
`nopeTemplate` is a valid string-to-string JSON object; every other input
reaching this stub is rejected the way `json.Unmarshal` rejects non-JSON
text. -/
def jsonUnmarshalStub : String → Except String Metadata := fun s =>
  if s = nopeTemplate then
    .ok [("k", "\x7b\x7b.Nope\x7d\x7d")]
  else
    .error ("invalid character")

/-! ### Helper lemmas -/

/-- A `getD` access at an in-bounds index hits the indexed element. -/
lemma getD_eq_get (l : List String) (i : Nat) (h : i < l.length) (d : String) :
    l.getD i d = l.get ⟨i, h⟩ := by
  induction l generalizing i with
  | nil => simp at h
  | cons x xs ih =>
    cases i with
    | zero => rfl
    | succ j => exact ih j (by simpa using h)

/-- In-bounds `goIndex` succeeds and yields the indexed element. -/
lemma goIndex_ok (values : List String) (i : Int) (h0 : 0 ≤ i)
    (h1 : i < (values.length : Int)) :
    goIndex values i = .ok (values.getD i.toNat ("")) := by
  unfold goIndex
  rw [dif_pos ⟨h0, h1⟩]
  exact congrArg GoResult.ok (getD_eq_get values i.toNat (by omega) ("")).symm

/-- Go's truncated remainder on two natural-number-valued integers is the
natural remainder. -/
lemma tmod_coe (n m : Nat) : Int.tmod (n : Int) (m : Int) = ((n % m : Nat) : Int) := rfl

/-- Go's truncated remainder of a negative dividend `-(k+1)` by a
natural-number-valued divisor is the negated natural remainder. -/
lemma tmod_negSucc_coe (k m : Nat) :
    Int.tmod (Int.negSucc k) (m : Int) = -(((k + 1) % m : Nat) : Int) := rfl

/-- A window `[lo, hi)` with `lo < hi ≤ len` cut out of a list is
non-empty. -/
lemma window_ne_nil (values : List String) (lo hi : Nat) (h1 : lo < hi)
    (h2 : hi ≤ values.length) :
    (values.drop lo).take (hi - lo) ≠ [] := by
  have hlt : 0 < ((values.drop lo).take (hi - lo)).length := by
    rw [List.length_take, List.length_drop]
    omega
  exact List.ne_nil_of_length_pos hlt

/-! ### Claim C1 -/

/-- Claim C1, counterexample: the claim asserts that a parse failure of a
non-empty payload template makes `executeData` return the literal
template bytes with a nil error.  At the concrete template `x{{`
(unclosed action, a `Parse` error) the `template.Must` wrapper panics, so
`executeData` aborts the call instead of returning the literal bytes. -/
theorem executeData_parse_error_cex :
    executeData "x\x7b\x7b" (.parseError ("unclosed action")) = .panicked ∧
      executeData "x\x7b\x7b" (.parseError ("unclosed action")) ≠ .ok ("x\x7b\x7b") := by
  constructor
  · rfl
  · decide

/-- Claim C1 (amended): for every non-empty payload template,
`executeData` tolerates an execution failure by returning the literal,
unparsed template bytes with a nil error, and returns the rendered bytes
with a nil error on success; a parse failure, however, panics inside
`template.Must` and aborts the call rather than falling back. -/
theorem executeData_spec (data : String) (h : 0 < data.length) :
    (∀ e, executeData data (.execError e) = .ok data) ∧
    (∀ s, executeData data (.rendered s) = .ok s) ∧
    (∀ e, executeData data (.parseError e) = .panicked) := by
  refine ⟨fun e => ?_, fun s => ?_, fun e => ?_⟩ <;>
    simp only [executeData, execute, if_pos h]

/-- Claim C1, witness for the amended theorem at a concrete non-empty
template and execution failure. -/
theorem executeData_spec_witness :
    0 < ("x\x7b\x7bBad\x7d\x7d" : String).length ∧
      executeData "x\x7b\x7bBad\x7d\x7d" (.execError ("boom")) = .ok ("x\x7b\x7bBad\x7d\x7d") :=
  ⟨by decide, (executeData_spec "x\x7b\x7bBad\x7d\x7d" (by decide)).1 "boom"⟩

/-! ### Claim C2 -/

/-- Claim C2, counterexample: the claim asserts that every
function-invocation error during `executeMetadata` is surfaced as a
returned error and that the literal template text is never silently sent
as metadata.  At the concrete template `{"k":"{{.Nope}}"}` execution
fails (no field `Nope`), the literal text is JSON-decoded instead, and
the call returns the mapping `k ↦ {{.Nope}}` with a nil error. -/
theorem executeMetadata_silent_fallback_cex :
    executeMetadata nopeTemplate (.execError ("cannot evaluate field Nope"))
        jsonUnmarshalStub = .ok [("k", "\x7b\x7b.Nope\x7d\x7d")] := by
  decide

/-- Claim C2 (amended): for every non-empty metadata template,
`executeMetadata` surfaces structural-validation failures: the bytes
handed to `json.Unmarshal` — the rendered output when execution
succeeds, or the literal template text when execution fails — are
decoded, and a decoding error is returned while a decoded mapping is
returned with a nil error.  A template parse failure panics inside
`template.Must`, and an execution failure is not itself surfaced: the
literal template text silently takes the rendered output's place. -/
theorem executeMetadata_spec (metadata : String) (h : 0 < metadata.length)
    (u : String → Except String Metadata) :
    (∀ e, executeMetadata metadata (.parseError e) u = .panicked) ∧
    (∀ e, executeMetadata metadata (.execError e) u =
      (match u metadata with
       | .error e2 => .err e2
       | .ok m => .ok m)) ∧
    (∀ s, executeMetadata metadata (.rendered s) u =
      (match u s with
       | .error e2 => .err e2
       | .ok m => .ok m)) := by
  refine ⟨fun e => ?_, fun e => ?_, fun s => ?_⟩ <;>
    simp only [executeMetadata, execute, if_pos h]

/-- Claim C2, witness for the amended theorem: a non-JSON literal
template whose execution fails yields the decoder's error. -/
theorem executeMetadata_spec_witness :
    0 < ("not-json" : String).length ∧
      executeMetadata "not-json" (.execError ("boom"))
        (fun _ => .error ("invalid character")) = .err ("invalid character") :=
  ⟨by decide, by
    have h := (executeMetadata_spec "not-json" (by decide)
      (fun _ => .error ("invalid character"))).2.1 "boom"
    exact h.trans (by rfl)⟩

/-! ### Claim C7 -/

/-- Claim C7: call context construction is total — for every descriptor,
worker identifier, request number, clock reading and identifier-generator
outcome it returns a populated context — and a failing identifier
generation is ignored: the `UUID` field falls back to the empty
(all-zeros) UUID string instead of aborting the call, while a successful
generation is stored verbatim. -/
theorem newCallTemplateData_spec (mtd : MethodDescriptor) (workerID : String)
    (reqNum : Int) (now : TimeNow) (uuidNewRandom : Except String String) :
    (newCallTemplateData mtd workerID reqNum now uuidNewRandom).WorkerID = workerID ∧
    (newCallTemplateData mtd workerID reqNum now uuidNewRandom).RequestNumber = reqNum ∧
    (newCallTemplateData mtd workerID reqNum now uuidNewRandom).FullyQualifiedName =
      mtd.fullyQualifiedName ∧
    (∀ e, uuidNewRandom = .error e →
      (newCallTemplateData mtd workerID reqNum now uuidNewRandom).UUID = nilUUIDString) ∧
    (∀ s, uuidNewRandom = .ok s →
      (newCallTemplateData mtd workerID reqNum now uuidNewRandom).UUID = s) := by
  refine ⟨rfl, rfl, rfl, fun e he => ?_, fun s hs => ?_⟩
  · subst he; rfl
  · subst hs; rfl

/-- Claim C7, witness: a concrete construction whose identifier
generation fails leaves the empty UUID in the context. -/
theorem newCallTemplateData_spec_witness :
    (newCallTemplateData
        ⟨"pkg.Svc.M", "M", "Svc", "In", "Out", false, true⟩ "w1" 7
        ⟨"2020-01-01T00:00:00Z", 1577836800, 1577836800000000000⟩
        (.error ("entropy exhausted"))).UUID = nilUUIDString :=
  (newCallTemplateData_spec ⟨"pkg.Svc.M", "M", "Svc", "In", "Out", false, true⟩ "w1" 7
    ⟨"2020-01-01T00:00:00Z", 1577836800, 1577836800000000000⟩
    (.error ("entropy exhausted"))).2.2.2.1 "entropy exhausted" rfl

/-! ### Claim C8 -/

/-- Claim C8: on the empty template string, `executeData` returns empty
bytes with a nil error and `executeMetadata` returns the empty mapping
with a nil error; both results are independent of the template engine's
outcome and of the JSON decoder — the parser is never consulted. -/
theorem empty_template_spec :
    (∀ o : EngineOutcome, executeData "" o = .ok ("")) ∧
    (∀ (o : EngineOutcome) (u : String → Except String Metadata),
      executeMetadata "" o u = .ok []) :=
  ⟨fun _ => rfl, fun _ _ => rfl⟩

/-- On a non-empty sequence, `RoundRobin` at a natural-number request
number returns the element at the natural remainder index. -/
lemma roundRobin_nonneg_aux (n : Nat) (values : List String) (hne : values ≠ []) :
    RoundRobin (n : Int) values = .ok (values.getD (n % values.length) ("")) := by
  have hlen : 0 < values.length := List.length_pos.mpr hne
  unfold RoundRobin
  rw [if_neg (by omega), tmod_coe,
    goIndex_ok values ((n % values.length : Nat) : Int) (Int.natCast_nonneg _)
      (by exact_mod_cast Nat.mod_lt n hlen)]
  rw [Int.toNat_natCast]

/-! ### Claim C3 -/

/-- Claim C3, counterexample: the claim asserts that for every non-empty
sequence and every call context, `RoundRobin` returns the element at
index `RequestNumber mod len`.  At `RequestNumber = -1` over `[a, b]`
the mathematical remainder is `1`, so the claim demands the element `b`;
the code instead computes Go's truncated remainder `-1` and panics on
the out-of-range index, returning neither an element nor an error. -/
theorem roundRobin_negative_request_cex :
    RoundRobin (-1) ["a", "b"] = .panicked ∧
      RoundRobin (-1) ["a", "b"] ≠ .ok ("b") := by
  constructor
  · rfl
  · decide

/-- Claim C3 (amended): `RoundRobin` is a pure, deterministic function of
the sequence and the request number; it returns an error exactly when
the sequence is empty; and for every non-negative `RequestNumber` over a
non-empty sequence it returns the element at index
`RequestNumber mod len`, so varying `RequestNumber` over `0..len-1`
visits every element exactly once.  (Negative request numbers whose
remainder is non-zero panic instead — see the companion safety claim.) -/
theorem roundRobin_spec (reqNum : Int) (values : List String) :
    (values = [] → RoundRobin reqNum values = .err ("values is empty")) ∧
    (0 ≤ reqNum → values ≠ [] →
      RoundRobin reqNum values = .ok (values.getD (reqNum.toNat % values.length) (""))) ∧
    (∀ i : Nat, i < values.length →
      RoundRobin (i : Int) values = .ok (values.getD i (""))) := by
  refine ⟨fun hv => ?_, fun hr hne => ?_, fun i hi => ?_⟩
  · subst hv; rfl
  · obtain ⟨n, rfl⟩ : ∃ n : Nat, reqNum = (n : Int) :=
      ⟨reqNum.toNat, (Int.toNat_of_nonneg hr).symm⟩
    rw [roundRobin_nonneg_aux n values hne, Int.toNat_natCast]
  · have hne : values ≠ [] := List.ne_nil_of_length_pos (by omega)
    rw [roundRobin_nonneg_aux i values hne, Nat.mod_eq_of_lt hi]

/-- Claim C3, witness: `RoundRobin 5` over a three-element sequence
returns the element at index `5 mod 3 = 2`. -/
theorem roundRobin_spec_witness :
    (0 : Int) ≤ 5 ∧ RoundRobin 5 ["a", "b", "c"] = .ok ("c") :=
  ⟨by decide, by
    have h := (roundRobin_spec 5 ["a", "b", "c"]).2.1 (by decide) (by decide)
    exact h.trans (by rfl)⟩

/-! ### Claim C9 -/

/-- Claim C9: `RoundRobin` is not total over all `int64` request numbers.
For every non-empty sequence and every negative `RequestNumber` whose
truncated remainder by the length is non-zero, the computed index is
negative and the element access `values[idx]` is out of bounds: the call
panics instead of returning a value or an error. -/
theorem roundRobin_negative (values : List String) (reqNum : Int)
    (hne : values ≠ []) (hneg : reqNum < 0)
    (hrem : Int.tmod reqNum (values.length : Int) ≠ 0) :
    Int.tmod reqNum (values.length : Int) < 0 ∧
      RoundRobin reqNum values = .panicked := by
  have hlen : 0 < values.length := List.length_pos.mpr hne
  obtain ⟨k, rfl⟩ : ∃ k : Nat, reqNum = Int.negSucc k := by
    cases reqNum with
    | ofNat n => exact absurd hneg (Int.natCast_nonneg n).not_lt
    | negSucc k => exact ⟨k, rfl⟩
  rw [tmod_negSucc_coe] at hrem ⊢
  have hmod : ((k + 1) % values.length : Nat) ≠ 0 := by
    intro h0
    apply hrem
    rw [h0]
    rfl
  have hpos : 0 < ((k + 1) % values.length : Nat) := Nat.pos_of_ne_zero hmod
  refine ⟨by omega, ?_⟩
  unfold RoundRobin
  rw [if_neg (by omega), tmod_negSucc_coe]
  unfold goIndex
  rw [dif_neg]
  intro hc
  have h1 := hc.1
  omega

/-- Claim C9, witness: request number `-2` over a three-element sequence
has truncated remainder `-2 ≠ 0` and panics. -/
theorem roundRobin_negative_witness :
    Int.tmod (-2) (((["a", "b", "c"] : List String).length : Nat) : Int) ≠ 0 ∧
      RoundRobin (-2) ["a", "b", "c"] = .panicked :=
  ⟨by decide,
    (roundRobin_negative ["a", "b", "c"] (-2) (by decide) (by decide) (by decide)).2⟩

/-! ### Claim C5 -/

/-- Claim C5: for every sequence and every `k > 0`, `RandomSliceK`
returns an error exactly when `len < k` (whatever the random draw); when
`len = k` it returns the whole sequence; and otherwise, for every random
start the generator can produce — any `start` with
`0 ≤ start < len - k` — it returns the contiguous sub-window
`[start, start + k)` of the input, whose length is exactly `k`. -/
theorem randomSliceK_spec (values : List String) (k : Int) (hk : 0 < k) :
    ((values.length : Int) < k →
      ∀ start : Int, RandomSliceK values k start = .err ("values must be longer than k")) ∧
    ((values.length : Int) = k →
      ∀ start : Int, RandomSliceK values k start = .ok values) ∧
    (k < (values.length : Int) →
      ∀ start : Int, 0 ≤ start → start < (values.length : Int) - k →
        RandomSliceK values k start = .ok ((values.drop start.toNat).take k.toNat) ∧
        ((values.drop start.toNat).take k.toNat).length = k.toNat) := by
  refine ⟨fun hlt start => ?_, fun heq start => ?_, fun hgt start h0 h1 => ?_⟩
  · unfold RandomSliceK
    rw [if_pos hlt]
  · unfold RandomSliceK
    rw [if_neg (by omega), if_pos heq]
  · unfold RandomSliceK goSlice
    rw [if_neg (by omega), if_neg (by omega), if_pos (by omega)]
    have harg : (start + k - start).toNat = k.toNat := by omega
    rw [harg]
    refine ⟨rfl, ?_⟩
    rw [List.length_take, List.length_drop]
    omega

/-- Claim C5, witness: a window of length `2` cut at start `0` out of a
three-element sequence. -/
theorem randomSliceK_spec_witness :
    (0 : Int) < 2 ∧ RandomSliceK ["a", "b", "c"] 2 0 = .ok ["a", "b"] :=
  ⟨by decide, by
    have h := ((randomSliceK_spec ["a", "b", "c"] 2 (by decide)).2.2
      (by decide) 0 (by decide) (by decide)).1
    exact h.trans (by rfl)⟩

/-! ### Claim C10 -/

/-- Claim C10: `RandomSliceK` is not total for negative `k`.  For every
non-empty sequence and every `k < 0`, the guard `len < k` cannot fire and
`len = k` is false, so the code reaches the slice expression with bounds
`end = start + k < start`: an invalid slice that panics at runtime
instead of producing a returned error, whatever value the random draw
takes. -/
theorem randomSliceK_negative_k (values : List String) (k : Int)
    (hne : values ≠ []) (hk : k < 0) :
    ∀ start : Int, start + k < start ∧ RandomSliceK values k start = .panicked := by
  intro start
  have hlen : 0 < values.length := List.length_pos.mpr hne
  refine ⟨by omega, ?_⟩
  unfold RandomSliceK goSlice
  rw [if_neg (by omega), if_neg (by omega), if_neg (by omega)]

/-- Claim C10, witness: `k = -1` over a singleton sequence panics at the
draw `start = 0`. -/
theorem randomSliceK_negative_k_witness :
    (["a"] : List String) ≠ [] ∧ (-1 : Int) < 0 ∧
      RandomSliceK ["a"] (-1) 0 = .panicked :=
  ⟨by decide, by decide, (randomSliceK_negative_k ["a"] (-1) (by decide) (by decide) 0).2⟩

/-! ### Claim C6 -/

/-- Claim C6: `RandomSlice` returns an error exactly when the input is
empty; and for every non-empty input and every pair of random draws
`a, b` in `[0, len)`, after the source's swap (when `a > b`) and
equal-index adjustment (extend the end by one when the common index is
`0`, otherwise decrement the start by one), the returned half-open
window `[lo, hi)` is a contiguous, non-empty sub-window of the input. -/
theorem randomSlice_spec (values : List String) (a b : Int) :
    (values = [] → RandomSlice values a b = .err ("values is empty")) ∧
    (values ≠ [] → 0 ≤ a → a < (values.length : Int) →
      0 ≤ b → b < (values.length : Int) →
      ∃ lo hi : Nat, lo < hi ∧ hi ≤ values.length ∧
        RandomSlice values a b = .ok ((values.drop lo).take (hi - lo)) ∧
        (values.drop lo).take (hi - lo) ≠ []) := by
  constructor
  · intro hv; subst hv; rfl
  · intro hne h0a haL h0b hbL
    have hlen : 0 < values.length := List.length_pos.mpr hne
    unfold RandomSlice goSlice
    rw [if_neg (by omega)]
    by_cases hab : a > b
    · rw [if_pos hab]
      refine ⟨b.toNat, a.toNat, by omega, by omega, ?_, ?_⟩
      · rw [if_pos (by omega)]
        have harg : (a - b).toNat = a.toNat - b.toNat := by omega
        rw [harg]
      · exact window_ne_nil values b.toNat a.toNat (by omega) (by omega)
    · rw [if_neg hab]
      by_cases heq : a = b
      · rw [if_pos heq]
        by_cases ha0 : a = 0
        · rw [if_pos ha0]
          refine ⟨a.toNat, (b + 1).toNat, by omega, by omega, ?_, ?_⟩
          · rw [if_pos (by omega)]
            have harg : (b + 1 - a).toNat = (b + 1).toNat - a.toNat := by omega
            rw [harg]
          · exact window_ne_nil values a.toNat (b + 1).toNat (by omega) (by omega)
        · rw [if_neg ha0]
          refine ⟨(a - 1).toNat, b.toNat, by omega, by omega, ?_, ?_⟩
          · rw [if_pos (by omega)]
            have harg : (b - (a - 1)).toNat = b.toNat - (a - 1).toNat := by omega
            rw [harg]
          · exact window_ne_nil values (a - 1).toNat b.toNat (by omega) (by omega)
      · rw [if_neg heq]
        refine ⟨a.toNat, b.toNat, by omega, by omega, ?_, ?_⟩
        · rw [if_pos (by omega)]
          have harg : (b - a).toNat = b.toNat - a.toNat := by omega
          rw [harg]
        · exact window_ne_nil values a.toNat b.toNat (by omega) (by omega)

/-- Claim C6, witness: the equal-draw adjustment at interior index `1`
over a three-element sequence yields a non-empty window. -/
theorem randomSlice_spec_witness :
    (["x", "y", "z"] : List String) ≠ [] ∧
      ∃ lo hi : Nat, lo < hi ∧ hi ≤ (["x", "y", "z"] : List String).length ∧
        RandomSlice ["x", "y", "z"] 1 1 =
          .ok (((["x", "y", "z"] : List String).drop lo).take (hi - lo)) ∧
        ((["x", "y", "z"] : List String).drop lo).take (hi - lo) ≠ [] :=
  ⟨by decide, (randomSlice_spec ["x", "y", "z"] 1 1).2 (by decide) (by decide)
    (by decide) (by decide) (by decide)⟩

/-! ### Claim C4 -/

/-- Unfolding of the specification progression below its bound. -/
lemma progressionBelow_cons (start stop step : Int) (hstep : 0 < step)
    (h : start < stop) :
    progressionBelow start stop step =
      toString start :: progressionBelow (start + step) stop step := by
  rw [progressionBelow, dif_pos ⟨hstep, h⟩]

/-- The specification progression is empty at or past its bound. -/
lemma progressionBelow_stop (start stop step : Int) (h : ¬ start < stop) :
    progressionBelow start stop step = [] := by
  rw [progressionBelow, dif_neg (fun hc => h hc.2)]

/-- Element-wise characterization of the specification progression for a
positive step: position `i` holds the decimal rendering of the `i`-th
term `start + i * step` exactly when that term is still below `stop`. -/
lemma progressionBelow_getElem (stop step : Int) (hstep : 0 < step) :
    ∀ (i : Nat) (start : Int),
      (progressionBelow start stop step)[i]? =
        if start + (i : Int) * step < stop then
          some (toString (start + (i : Int) * step))
        else
          none := by
  intro i
  induction i with
  | zero =>
    intro start
    rw [progressionBelow]
    by_cases h : start < stop
    · rw [dif_pos ⟨hstep, h⟩]
      simp only [List.getElem?_cons_zero, Nat.cast_zero, zero_mul, add_zero, if_pos h]
    · rw [dif_neg (fun hc => h hc.2)]
      simp only [List.getElem?_nil, Nat.cast_zero, zero_mul, add_zero, if_neg h]
  | succ i ih =>
    intro start
    rw [progressionBelow]
    by_cases h : start < stop
    · rw [dif_pos ⟨hstep, h⟩, List.getElem?_cons_succ, ih (start + step)]
      have harith : start + step + (i : Int) * step = start + ((i : Nat) + 1 : Nat) * step := by
        push_cast
        ring
      rw [harith]
    · rw [dif_neg (fun hc => h hc.2)]
      have hle : stop ≤ start := le_of_not_lt h
      have hnn : (0 : Int) ≤ (i : Int) * step := mul_nonneg (Int.natCast_nonneg i) hstep.le
      have hcond : ¬ (start + (((i : Nat) + 1 : Nat) : Int) * step < stop) := by
        have hexp : (((i : Nat) + 1 : Nat) : Int) * step = (i : Int) * step + step := by
          push_cast
          ring
        rw [hexp]
        intro hlt
        linarith
      simp only [List.getElem?_nil, if_neg hcond]

/-- Wrapping is the identity inside the `int64` range. -/
lemma wrap64_eq_self (x : Int) (h1 : int64Min ≤ x)
    (h2 : x < 9223372036854775808) : wrap64 x = x := by
  unfold wrap64
  unfold int64Min at h1
  omega

/-- When the progression never leaves the `int64` range before reaching
its bound — `int64Min ≤ start` and `stop + step ≤ 2^63` — the source's
wrapping loop terminates within any fuel exceeding `stop - start` and
produces exactly the specification progression. -/
lemma rangeLoop_no_overflow (stop step : Int) (hstep : 0 < step)
    (hstop : stop + step ≤ 9223372036854775808) :
    ∀ (fuel : Nat) (start : Int), int64Min ≤ start → (stop - start).toNat < fuel →
      rangeLoop fuel start stop step = some (progressionBelow start stop step) := by
  intro fuel
  induction fuel with
  | zero => intro start _ hf; exact absurd hf (Nat.not_lt_zero _)
  | succ n ih =>
    intro start hs hf
    by_cases h : start < stop
    · have hws : wrap64 (start + step) = start + step := by
        refine wrap64_eq_self (start + step) ?_ (by omega)
        unfold int64Min at hs ⊢
        omega
      have hrec := ih (start + step) (by unfold int64Min at hs ⊢; omega) (by omega)
      simp only [rangeLoop, if_pos h, hws, hrec]
      rw [progressionBelow_cons start stop step hstep h]
    · simp only [rangeLoop, if_neg h]
      rw [progressionBelow_stop start stop step h]

/-- Claim C4, counterexample: the claim asserts that for every input
passing the guard (`step > 0` and `start < step`), `Range` returns
exactly the progression values strictly below `end` — for
`Range(0, -2, 1)` the empty sequence.  The source instead reaches
`make([]string, 0, (end-start)/step+1)` with capacity
`(-2-0)/1 + 1 = -1` and panics at runtime, never returning. -/
theorem range_negative_capacity_cex :
    Range 1 0 (-2) 1 = some .panicked ∧ Range 1 0 (-2) 1 ≠ some (.ok []) := by
  constructor
  · decide
  · decide

/-- Claim C4 (amended): `Range(start, end, step)` returns the empty
sequence whenever `step ≤ 0` or `start ≥ step` — the second guard
compares `start` against `step`, exactly as the source does, not against
`end`.  Past the guard the source first allocates with capacity
`(end-start)/step + 1`, computed in wrapping 64-bit arithmetic, and
panics when that capacity is negative; when the capacity is non-negative
and the progression stays inside the `int64` range until first reaching
`end` (`int64Min ≤ start` and `end + step ≤ 2^63`), the loop terminates
and returns exactly the decimal string renderings of the arithmetic
progression `start, start + step, …` of all values strictly below `end`:
position `i` of that progression holds `start + i * step` rendered in
decimal precisely while that value is below `end`, and nothing past the
last such value. -/
theorem range_spec (start stop step : Int) :
    ((step ≤ 0 ∨ start ≥ step) → ∀ fuel : Nat,
      Range fuel start stop step = some (.ok [])) ∧
    (0 < step → start < step → rangeCap start stop step < 0 → ∀ fuel : Nat,
      Range fuel start stop step = some .panicked) ∧
    (0 < step → start < step → 0 ≤ rangeCap start stop step →
      int64Min ≤ start → stop + step ≤ 9223372036854775808 →
      ∀ fuel : Nat, (stop - start).toNat < fuel →
        Range fuel start stop step = some (.ok (progressionBelow start stop step))) ∧
    (0 < step → ∀ i : Nat,
      (progressionBelow start stop step)[i]? =
        if start + (i : Int) * step < stop then
          some (toString (start + (i : Int) * step))
        else
          none) := by
  refine ⟨fun h fuel => ?_, fun h1 h2 hcap fuel => ?_,
    fun h1 h2 hcap hs hb fuel hf => ?_, fun h1 i => ?_⟩
  · unfold Range
    rw [if_pos h]
  · unfold Range
    rw [if_neg (by push_neg; exact ⟨h1, h2⟩), if_pos hcap]
  · unfold Range
    rw [if_neg (by push_neg; exact ⟨h1, h2⟩), if_neg (not_lt.mpr hcap),
      rangeLoop_no_overflow stop step h1 hb fuel start hs hf]
    rfl
  · exact progressionBelow_getElem stop step h1 i start

/-- Claim C4, witness: `Range` with fuel `7` at `(1, 7, 2)` has
non-negative capacity and returns the progression `["1", "3", "5"]`,
checked at position `1` (term `3`) and position `3` (past the end). -/
theorem range_spec_witness :
    (0 : Int) < 2 ∧ (1 : Int) < 2 ∧ 0 ≤ rangeCap 1 7 2 ∧
      Range 7 1 7 2 = some (.ok (progressionBelow 1 7 2)) ∧
      (progressionBelow 1 7 2)[1]? = some ("3") ∧
      (progressionBelow 1 7 2)[3]? = none :=
  ⟨by decide, by decide, by decide,
    (range_spec 1 7 2).2.2.1 (by decide) (by decide) (by decide) (by decide)
      (by decide) 7 (by decide), by
    have h := (range_spec 1 7 2).2.2.2 (by decide) 1
    exact h.trans (by decide), by
    have h := (range_spec 1 7 2).2.2.2 (by decide) 3
    exact h.trans (by decide)⟩

end Runner
